import Mathlib

/-!
Verification of the conversational Telegram-bot session manager (`main.go`).

The Go source is shallowly embedded: the session record, the session store,
the text classifiers (the three regular-expression filters), every handler,
and `ProcessUpdate` are translated to executable Lean definitions.  Go map
iteration order is unspecified (and randomized by the runtime), so every
place the source ranges over a `map[string]string` takes an explicit
enumeration function `π` describing the order the runtime happens to choose;
a faithful `π` returns a permutation of the stored entries.
-/

namespace TgBot

/-- Model of Go `strings.ToLower`: lower-case every character. -/
def toLower (s : String) : String :=
  ⟨s.data.map Char.toLower⟩

/-- Go constant `StateChoosing = iota` (0). -/
def StateChoosing : Int := 0

/-- Go constant `StateTypingReply` (1). -/
def StateTypingReply : Int := 1

/-- Go constant `StateTypingChoice` (2). -/
def StateTypingChoice : Int := 2

/-- Embedding of the Go struct `UserSession`.  The Go `map[string]string`
field `UserData` is modelled as an association list with unique keys. -/
structure UserSession where
  State : Int
  CurrentKey : String
  UserData : List (String × String)
  LastUpdated : Int
deriving DecidableEq

/-- Embedding of the Go struct `ThreadSafeStorage` (the mutex is the Go
concurrency guard and has no sequential content). -/
structure ThreadSafeStorage where
  Sessions : List (Int × UserSession)
  FilePath : String
deriving DecidableEq

/-- Association-list lookup, modelling Go map indexing `v, ok := m[k]`. -/
def lookupA {α β : Type} [DecidableEq α] : List (α × β) → α → Option β
  | [], _ => none
  | (k, v) :: rest, x => if x = k then some v else lookupA rest x

/-- Association-list insert-or-update, modelling Go map assignment `m[k] = v`. -/
def insertA {α β : Type} [DecidableEq α] : List (α × β) → α → β → List (α × β)
  | [], k, v => [(k, v)]
  | (k0, v0) :: rest, k, v =>
    if k = k0 then (k, v) :: rest else (k0, v0) :: insertA rest k v

/-- Embedding of Go `factsToString`: render each entry as `"k - v"` and join
with newlines, in the order the entries are enumerated. -/
def factsToString (facts : List (String × String)) : String :=
  String.intercalate "\n" (facts.map (fun kv => kv.1 ++ " - " ++ kv.2))

/-- The part of a `tgbotapi.Update` the core logic reads: whether the message
is a command, the command name, and the raw text. -/
structure Update where
  IsCommand : Bool
  Command : String
  Text : String
deriving DecidableEq

/-- The effect of one `ProcessUpdate` call: the mutated session and the texts
sent through the gateway, in order. -/
structure StepResult where
  session : UserSession
  replies : List String
deriving DecidableEq

/-- Embedding of `handleStart`.  `π` is the map-enumeration order used by the
`for k := range session.UserData` loop. -/
def handleStart (π : List (String × String) → List (String × String))
    (u : Update) (s : UserSession) : StepResult :=
  let reply := "Hi! My name is Doctor Botter."
  let reply :=
    if s.UserData.length > 0 then
      reply ++ " You already told me your " ++
        String.intercalate ", " ((π s.UserData).map Prod.fst) ++
        ". Why don\x27t you tell me something more about yourself? Or change anything I already know."
    else
      reply ++ " I will hold a more complex conversation with you. Why don\x27t you tell me something about yourself?"
  { session := { s with State := StateChoosing }, replies := [reply] }

/-- Embedding of `handleRegularChoice`: lower-case the text, record it as the
pending category, reply (quoting any existing value), move to TypingReply. -/
def handleRegularChoice (u : Update) (s : UserSession) : StepResult :=
  let text := toLower u.Text
  let replyText :=
    match lookupA s.UserData text with
    | some val => "Your " ++ text ++ "? I already know the following about that: " ++ val
    | none => "Your " ++ text ++ "? Yes, I would love to hear about that!"
  { session := { s with CurrentKey := text, State := StateTypingReply },
    replies := [replyText] }

/-- Embedding of `handleCustomChoice`: prompt for a category name, move to
TypingChoice. -/
def handleCustomChoice (u : Update) (s : UserSession) : StepResult :=
  { session := { s with State := StateTypingChoice },
    replies := ["Alright, please send me the category first, for example \"Most impressive skill\""] }

/-- Embedding of `handleReceivedInformation`: store the lower-cased text under
the pending category, clear the pending category, summarize, move to
Choosing.  `π` enumerates the updated map for the summary. -/
def handleReceivedInformation (π : List (String × String) → List (String × String))
    (u : Update) (s : UserSession) : StepResult :=
  let newData := insertA s.UserData s.CurrentKey (toLower u.Text)
  let msgText := "Neat! Just so you know, this is what you already told me:\n" ++
    factsToString (π newData) ++
    "\nYou can tell me more, or change your opinion on something."
  { session := { s with UserData := newData, CurrentKey := "", State := StateChoosing },
    replies := [msgText] }

/-- Embedding of `handleDone`: clear the pending category, summarize all
facts, move to Choosing. -/
def handleDone (π : List (String × String) → List (String × String))
    (u : Update) (s : UserSession) : StepResult :=
  let msgText := "I learned these facts about you:\n" ++
    factsToString (π s.UserData) ++ "\nUntil next time!"
  { session := { s with CurrentKey := "", State := StateChoosing },
    replies := [msgText] }

/-- Embedding of `handleShowData`: reply with the facts, change nothing. -/
def handleShowData (π : List (String × String) → List (String × String))
    (u : Update) (s : UserSession) : StepResult :=
  { session := s,
    replies := ["This is what you already told me:\n" ++ factsToString (π s.UserData)] }

/-- Embedding of the Go regexp filter `(?i)^Done$` (case-insensitive exact
match). -/
def isDone (text : String) : Bool :=
  toLower text == "done"

/-- Embedding of the Go regexp filter `^(Age|Favourite colour|Number of siblings)$`
(case-sensitive exact alternation). -/
def isRegular (text : String) : Bool :=
  text == "Age" || text == "Favourite colour" || text == "Number of siblings"

/-- Embedding of the Go regexp filter `^Something else...$`: the literal
prefix `Something else` followed by exactly three characters, each matched by
`.` (any character except newline). -/
def isCustom (text : String) : Bool :=
  text.data.length == 17 && text.data.take 14 == "Something else".data &&
    (text.data.drop 14).all (fun c => c != '\n')

/-- Embedding of `ProcessUpdate`: command dispatch first (unrecognized
commands fall through to the state machine, as in the Go `switch`), then the
regex classification, then the state machine `switch` on `session.State`
(an unknown state value hits no `case` and does nothing). -/
def ProcessUpdate (π : List (String × String) → List (String × String))
    (u : Update) (s : UserSession) : StepResult :=
  if u.IsCommand && u.Command == "start" then handleStart π u s
  else if u.IsCommand && u.Command == "show_data" then handleShowData π u s
  else
    let text := u.Text
    if s.State == StateChoosing then
      if isRegular text then handleRegularChoice u s
      else if isCustom text then handleCustomChoice u s
      else if isDone text then handleDone π u s
      else { session := s, replies := [] }
    else if s.State == StateTypingChoice then
      if !(isDone text) then
        let ck := toLower text
        { session := { s with CurrentKey := ck, State := StateTypingReply },
          replies := ["Your " ++ ck ++ "? Yes, I would love to hear about that!"] }
      else handleRegularChoice u s
    else if s.State == StateTypingReply then
      if !(isDone text) then handleReceivedInformation π u s
      else handleDone π u s
    else { session := s, replies := [] }

/-- The default session built by `GetOrCreateSession`: Go zero values for the
fields the literal omits (`CurrentKey = ""`, `LastUpdated = 0`). -/
def freshSession : UserSession :=
  { State := StateChoosing, CurrentKey := "", UserData := [], LastUpdated := 0 }

/-- Embedding of `ThreadSafeStorage.GetOrCreateSession`: return the existing
session, or insert and return a fresh default one. -/
def GetOrCreateSession (st : ThreadSafeStorage) (userID : Int) :
    UserSession × ThreadSafeStorage :=
  match lookupA st.Sessions userID with
  | some s => (s, st)
  | none => (freshSession, { st with Sessions := insertA st.Sessions userID freshSession })

/-- The structured-document values the snapshot codec produces (the subset of
JSON the `UserSession` encoding uses). -/
inductive Json where
  | str : String → Json
  | num : Int → Json
  | obj : List (String × Json) → Json

/-- Encoding of the `UserData` map as a JSON object of string values. -/
def encodeFacts (facts : List (String × String)) : Json :=
  Json.obj (facts.map (fun kv => (kv.1, Json.str kv.2)))

/-- Encoding of a `UserSession` per its Go struct tags: `state`,
`current_key` (with `omitempty`: absent when empty), `user_data`,
`last_updated`. -/
def encodeSession (s : UserSession) : Json :=
  Json.obj
    ([("state", Json.num s.State)] ++
     (if s.CurrentKey = "" then [] else [("current_key", Json.str s.CurrentKey)]) ++
     [("user_data", encodeFacts s.UserData), ("last_updated", Json.num s.LastUpdated)])

/-- Decoder for a JSON string value. -/
def asStr : Json → Option String
  | Json.str v => some v
  | _ => none

/-- Decoder for a JSON numeric value. -/
def asNum : Json → Option Int
  | Json.num v => some v
  | _ => none

/-- Decoder for the fields of a `user_data` object: every value must be a
string. -/
def decodeFactsList : List (String × Json) → Option (List (String × String))
  | [] => some []
  | (k, j) :: rest =>
    match asStr j, decodeFactsList rest with
    | some v, some r => some ((k, v) :: r)
    | _, _ => none

/-- Decoder for the `user_data` map. -/
def decodeFacts : Json → Option (List (String × String))
  | Json.obj fs => decodeFactsList fs
  | _ => none

/-- Decode one struct field the way Go `encoding/json` fills a struct: a
missing field keeps the zero value `dflt`, a present field must convert. -/
def decodeField {α : Type} (fs : List (String × Json)) (fld : String) (dflt : α)
    (conv : Json → Option α) : Option α :=
  match lookupA fs fld with
  | none => some dflt
  | some j => conv j

/-- Decoder for a `UserSession` record, inverse to `encodeSession`. -/
def decodeSession : Json → Option UserSession
  | Json.obj fs =>
    match decodeField fs "state" (0 : Int) asNum,
          decodeField fs "current_key" "" asStr,
          decodeField fs "user_data" ([] : List (String × String)) decodeFacts,
          decodeField fs "last_updated" (0 : Int) asNum with
    | some a, some b, some c, some d =>
      some { State := a, CurrentKey := b, UserData := c, LastUpdated := d }
    | _, _, _, _ => none
  | _ => none

/-- Embedding of `ThreadSafeStorage.Save`: the snapshot document maps each
actor identifier to the encoded session record (spec §6); the byte-level
rendering of the document is the external codec. -/
def Save (st : ThreadSafeStorage) : List (Int × Json) :=
  st.Sessions.map (fun p => (p.1, encodeSession p.2))

/-- Decoder for the whole snapshot document. -/
def decodeSessions : List (Int × Json) → Option (List (Int × UserSession))
  | [] => some []
  | (k, j) :: rest =>
    match decodeSession j, decodeSessions rest with
    | some s, some r => some ((k, s) :: r)
    | _, _ => none

/-- Embedding of `ThreadSafeStorage.Load` on a fresh store (`NewStorage`):
the decoded mapping replaces the empty one; a decode failure is `none`
(the Go code logs and leaves the store empty). -/
def LoadFresh (filePath : String) (doc : List (Int × Json)) : Option ThreadSafeStorage :=
  (decodeSessions doc).map (fun m => { Sessions := m, FilePath := filePath })

/-- Sessions reachable from the lazily-created default session by any
sequence of processed updates (any texts, any map-enumeration orders). -/
inductive Reachable : UserSession → Prop
  | init : Reachable freshSession
  | step (π : List (String × String) → List (String × String)) (u : Update)
      {s : UserSession} : Reachable s → Reachable (ProcessUpdate π u s).session

/-- Invariant: the pending category and every key of the facts map are fixed
points of `toLower` (case-normalized). -/
def LoweredInv (s : UserSession) : Prop :=
  toLower s.CurrentKey = s.CurrentKey ∧ ∀ k v, (k, v) ∈ s.UserData → toLower k = k

theorem toNat_ofNat_valid {n : Nat} (h : n.isValidChar) : (Char.ofNat n).toNat = n := by
  rw [Char.ofNat, dif_pos h]
  rfl

theorem char_toLower_idem (c : Char) : Char.toLower (Char.toLower c) = Char.toLower c := by
  simp only [Char.toLower]
  by_cases h : c.toNat ≥ 65 ∧ c.toNat ≤ 90
  · rw [if_pos h]
    have hv : (c.toNat + 32).isValidChar := Or.inl (by omega)
    rw [toNat_ofNat_valid hv, if_neg (by omega)]
  · rw [if_neg h, if_neg h]

theorem toLower_toLower (s : String) : toLower (toLower s) = toLower s := by
  unfold toLower
  apply congrArg String.mk
  simp only [List.map_map]
  induction s.data with
  | nil => rfl
  | cons c rest ih => simp [Function.comp, char_toLower_idem, ih]

theorem length_data_toLower (s : String) : (toLower s).data.length = s.data.length := by
  simp [toLower]

theorem isRegular_false_of_isDone {t : String} (h : isDone t = true) : isRegular t = false := by
  have hd : toLower t = "done" := by simpa [isDone] using h
  simp only [isRegular, Bool.or_eq_false_iff, beq_eq_false_iff_ne, ne_eq]
  refine ⟨⟨?_, ?_⟩, ?_⟩ <;> rintro rfl <;> revert hd <;> decide

theorem isCustom_false_of_isDone {t : String} (h : isDone t = true) : isCustom t = false := by
  have hd : toLower t = "done" := by simpa [isDone] using h
  have hlen : t.data.length = 4 := by
    have h2 := congrArg (fun x => x.data.length) hd
    simpa [toLower] using h2
  unfold isCustom
  rw [hlen]
  rfl

theorem lookupA_insertA_self {α β : Type} [DecidableEq α] (m : List (α × β)) (k : α) (v : β) :
    lookupA (insertA m k v) k = some v := by
  induction m with
  | nil => simp [insertA, lookupA]
  | cons p rest ih =>
    rcases p with ⟨a, b⟩
    by_cases h : k = a
    · simp [insertA, h, lookupA]
    · simp [insertA, h, lookupA, ih]

theorem lookupA_insertA_ne {α β : Type} [DecidableEq α] (m : List (α × β)) (k : α) (v : β)
    (j : α) (h : j ≠ k) : lookupA (insertA m k v) j = lookupA m j := by
  induction m with
  | nil => simp [insertA, lookupA, h]
  | cons p rest ih =>
    rcases p with ⟨a, b⟩
    by_cases hk : k = a
    · subst hk
      simp [insertA, lookupA, h]
    · by_cases hj : j = a
      · simp [insertA, hk, lookupA, hj]
      · simp [insertA, hk, lookupA, hj, ih]

theorem mem_insertA {α β : Type} [DecidableEq α] {m : List (α × β)} {k0 : α} {v0 : β}
    {k : α} {v : β} (h : (k, v) ∈ insertA m k0 v0) : k = k0 ∨ ∃ w, (k, w) ∈ m := by
  induction m with
  | nil =>
    simp only [insertA, List.mem_singleton, Prod.mk.injEq] at h
    exact Or.inl h.1
  | cons p rest ih =>
    rcases p with ⟨a, b⟩
    by_cases hk : k0 = a
    · rw [insertA, if_pos hk] at h
      rcases List.mem_cons.mp h with h1 | h1
      · exact Or.inl (congrArg Prod.fst h1)
      · exact Or.inr ⟨v, List.mem_cons_of_mem _ h1⟩
    · rw [insertA, if_neg hk] at h
      rcases List.mem_cons.mp h with h1 | h1
      · injection h1 with hka hvb
        subst hka
        exact Or.inr ⟨b, List.mem_cons_self _ _⟩
      · rcases ih h1 with h2 | ⟨w, hw⟩
        · exact Or.inl h2
        · exact Or.inr ⟨w, List.mem_cons_of_mem _ hw⟩

theorem decodeFactsList_map (l : List (String × String)) :
    decodeFactsList (l.map (fun kv => (kv.1, Json.str kv.2))) = some l := by
  induction l with
  | nil => rfl
  | cons kv rest ih => simp [decodeFactsList, asStr, ih]

theorem decodeFacts_encodeFacts (l : List (String × String)) :
    decodeFacts (encodeFacts l) = some l := by
  simp [decodeFacts, encodeFacts, decodeFactsList_map]

theorem decodeSession_encodeSession (s : UserSession) :
    decodeSession (encodeSession s) = some s := by
  by_cases h : s.CurrentKey = ""
  · unfold encodeSession
    rw [if_pos h]
    simp [decodeSession, decodeField, lookupA, asNum, asStr, decodeFacts, encodeFacts, decodeFactsList_map, h]
    rw [← h]
  · unfold encodeSession
    rw [if_neg h]
    simp [decodeSession, decodeField, lookupA, asNum, asStr, decodeFacts, encodeFacts, decodeFactsList_map]

theorem decodeSessions_save (l : List (Int × UserSession)) :
    decodeSessions (l.map (fun p => (p.1, encodeSession p.2))) = some l := by
  induction l with
  | nil => rfl
  | cons p rest ih => simp [decodeSessions, decodeSession_encodeSession, ih]

/-- C1 (amended): a non-command inbound text classified as Done, processed in
state Choosing or TypingReply, clears the pending category, replies with the
summary enumerating all facts, and moves the session to Choosing.  In
TypingCategory the code instead falls through to the regular-choice handler,
so the original claim fails there (see the counterexample). -/
theorem c1_done_summarizes_and_returns_to_choosing
    (π : List (String × String) → List (String × String)) (u : Update) (s : UserSession)
    (hc : u.IsCommand = false) (hd : isDone u.Text = true)
    (hs : s.State = StateChoosing ∨ s.State = StateTypingReply) :
    ProcessUpdate π u s =
      { session := { s with CurrentKey := "", State := StateChoosing },
        replies := ["I learned these facts about you:\n" ++ factsToString (π s.UserData) ++
          "\nUntil next time!"] } := by
  have hr := isRegular_false_of_isDone hd
  have hcu := isCustom_false_of_isDone hd
  rcases hs with h | h <;>
    simp [ProcessUpdate, hc, h, hr, hcu, hd, handleDone,
      StateChoosing, StateTypingReply, StateTypingChoice]

/-- C1 witness: the amended theorem at the Done text "DONE" in TypingReply. -/
theorem c1_witness :
    ProcessUpdate (fun m => m) ⟨false, "", "DONE"⟩ ⟨StateTypingReply, "age", [("age", "30")], 0⟩ =
      { session := { State := StateChoosing, CurrentKey := "", UserData := [("age", "30")], LastUpdated := 0 },
        replies := ["I learned these facts about you:\nage - 30\nUntil next time!"] } := by
  have h := c1_done_summarizes_and_returns_to_choosing (fun m => m) ⟨false, "", "DONE"⟩
    ⟨StateTypingReply, "age", [("age", "30")], 0⟩ rfl (by decide) (Or.inr rfl)
  rw [h]
  rfl

/-- C1 counterexample: in TypingCategory a Done-classified text is handled as
a regular category choice: the session moves to TypingReply with pending
category "done" instead of moving to Choosing with it cleared. -/
theorem c1_counterexample :
    (ProcessUpdate (fun m => m) ⟨false, "", "Done"⟩ ⟨StateTypingChoice, "", [], 0⟩).session =
      { State := StateTypingReply, CurrentKey := "done", UserData := [], LastUpdated := 0 } ∧
    StateTypingReply ≠ StateChoosing ∧ ("done" : String) ≠ "" := by
  decide

/-- C2 (amended): the start command sets the state to Choosing and leaves the
facts unchanged, but it does NOT clear the pending category: every other
session field, `CurrentKey` included, is left exactly as it was. -/
theorem c2_start_sets_choosing
    (π : List (String × String) → List (String × String)) (u : Update) (s : UserSession)
    (hc : u.IsCommand = true) (hcmd : u.Command = "start") :
    (ProcessUpdate π u s).session = { s with State := StateChoosing } := by
  simp [ProcessUpdate, hc, hcmd, handleStart]

/-- C2 witness: start processed in TypingReply with a pending category. -/
theorem c2_witness :
    (ProcessUpdate (fun m => m) ⟨true, "start", "/start"⟩
        ⟨StateTypingReply, "age", [("color", "blue")], 7⟩).session =
      { State := StateChoosing, CurrentKey := "age", UserData := [("color", "blue")], LastUpdated := 7 } := by
  have h := c2_start_sets_choosing (fun m => m) ⟨true, "start", "/start"⟩
    ⟨StateTypingReply, "age", [("color", "blue")], 7⟩ rfl rfl
  rw [h]

/-- C2 counterexample: after start the pending category "age" is still there,
refuting "pendingCategory is empty after the transition". -/
theorem c2_counterexample :
    (ProcessUpdate (fun m => m) ⟨true, "start", "/start"⟩
        ⟨StateTypingReply, "age", [], 0⟩).session.CurrentKey = "age" ∧
    ("age" : String) ≠ "" := by
  decide

/-- C3 (amended): in TypingReply a non-command text not classified as Done is
stored under the pending category LOWER-CASED (not raw), the pending category
is cleared, and the session moves to Choosing. -/
theorem c3_typing_reply_stores_lowercased
    (π : List (String × String) → List (String × String)) (u : Update) (s : UserSession)
    (hc : u.IsCommand = false) (hs : s.State = StateTypingReply) (hd : isDone u.Text = false) :
    ProcessUpdate π u s =
      { session := { s with
          UserData := insertA s.UserData s.CurrentKey (toLower u.Text)
          CurrentKey := ""
          State := StateChoosing },
        replies := ["Neat! Just so you know, this is what you already told me:\n" ++
          factsToString (π (insertA s.UserData s.CurrentKey (toLower u.Text))) ++
          "\nYou can tell me more, or change your opinion on something."] } := by
  simp [ProcessUpdate, hc, hs, hd, handleReceivedInformation,
    StateChoosing, StateTypingReply, StateTypingChoice]

/-- C3 witness: the amended theorem at text "Blue" with pending category
"color". -/
theorem c3_witness :
    ProcessUpdate (fun m => m) ⟨false, "", "Blue"⟩ ⟨StateTypingReply, "color", [], 0⟩ =
      { session := { State := StateChoosing, CurrentKey := "", UserData := [("color", "blue")], LastUpdated := 0 },
        replies := ["Neat! Just so you know, this is what you already told me:\ncolor - blue\nYou can tell me more, or change your opinion on something."] } := by
  have h := c3_typing_reply_stores_lowercased (fun m => m) ⟨false, "", "Blue"⟩
    ⟨StateTypingReply, "color", [], 0⟩ rfl rfl (by decide)
  rw [h]
  rfl

/-- C3 counterexample: the raw text "Blue" is not what gets stored — the
value recorded under "color" is "blue". -/
theorem c3_counterexample :
    lookupA (ProcessUpdate (fun m => m) ⟨false, "", "Blue"⟩
        ⟨StateTypingReply, "color", [], 0⟩).session.UserData "color" = some "blue" ∧
    some ("blue" : String) ≠ some "Blue" := by
  decide

/-- C4 (amended): only the Done classification is case-insensitive: two texts
with the same lower-casing always classify identically as Done. -/
theorem c4_done_case_insensitive (t t' : String) (h : toLower t = toLower t') :
    isDone t = isDone t' := by
  simp [isDone, h]

/-- C4 witness: "DoNe" and "done" differ only in case and classify alike. -/
theorem c4_witness : toLower "DoNe" = toLower "done" ∧ isDone "DoNe" = isDone "done" :=
  ⟨by decide, c4_done_case_insensitive "DoNe" "done" (by decide)⟩

/-- C4 counterexample: the regular-category and custom-category matches are
case-sensitive: "Age"/"age" and "Something else..."/"something else..."
differ only in case yet classify differently. -/
theorem c4_counterexample :
    toLower "Age" = toLower "age" ∧ isRegular "Age" = true ∧ isRegular "age" = false ∧
    toLower "Something else..." = toLower "something else..." ∧
    isCustom "Something else..." = true ∧ isCustom "something else..." = false := by
  decide

/-- C5: persistence round-trip.  For a store containing a session record with
non-empty facts (any state, any pending category), saving and loading into a
fresh store reproduces the store exactly, hence a record equal to the
original (same state, same facts, same pending category). -/
theorem c5_persistence_round_trip (st : ThreadSafeStorage) (id : Int) (s : UserSession)
    (hmem : (id, s) ∈ st.Sessions) (hfacts : s.UserData ≠ []) :
    LoadFresh st.FilePath (Save st) = some st := by
  simp [LoadFresh, Save, decodeSessions_save]

/-- C5 witness: the round trip at the store of the Go unit test (one session
in TypingReply with the fact age = 30). -/
theorem c5_witness :
    ([("age", "30")] : List (String × String)) ≠ [] ∧
    LoadFresh "test_storage.json"
        (Save ⟨[(12345, ⟨StateTypingReply, "", [("age", "30")], 0⟩)], "test_storage.json"⟩) =
      some ⟨[(12345, ⟨StateTypingReply, "", [("age", "30")], 0⟩)], "test_storage.json"⟩ :=
  ⟨by decide,
   c5_persistence_round_trip
     ⟨[(12345, ⟨StateTypingReply, "", [("age", "30")], 0⟩)], "test_storage.json"⟩
     12345 ⟨StateTypingReply, "", [("age", "30")], 0⟩ (by decide) (by decide)⟩

/-- C6 (amended): the show command leaves the session entirely unchanged and
replies with the heading "This is what you already told me:" followed by a
newline and the facts rendered as "k - v" lines joined by newline, in the
enumeration order; the reply is NOT the bare joined lines. -/
theorem c6_show_data_spec
    (π : List (String × String) → List (String × String)) (u : Update) (s : UserSession)
    (hc : u.IsCommand = true) (hcmd : u.Command = "show_data") :
    (ProcessUpdate π u s).session = s ∧
    (ProcessUpdate π u s).replies =
      ["This is what you already told me:\n" ++ factsToString (π s.UserData)] := by
  constructor <;> simp [ProcessUpdate, hc, hcmd, handleShowData]

/-- C6 witness: the amended theorem at the facts of the claim's scenario. -/
theorem c6_witness :
    (ProcessUpdate (fun m => m) ⟨true, "show_data", "/show_data"⟩
        ⟨StateChoosing, "", [("age", "30"), ("color", "blue")], 0⟩).session =
      ⟨StateChoosing, "", [("age", "30"), ("color", "blue")], 0⟩ ∧
    (ProcessUpdate (fun m => m) ⟨true, "show_data", "/show_data"⟩
        ⟨StateChoosing, "", [("age", "30"), ("color", "blue")], 0⟩).replies =
      ["This is what you already told me:\n" ++
        factsToString [("age", "30"), ("color", "blue")]] :=
  c6_show_data_spec (fun m => m) ⟨true, "show_data", "/show_data"⟩
    ⟨StateChoosing, "", [("age", "30"), ("color", "blue")], 0⟩ rfl rfl

/-- C6 counterexample: for facts age = 30, color = blue the reply carries the
heading, so it equals neither "age - 30\nColor..." ordering of the bare
two-line rendering the claim requires. -/
theorem c6_counterexample :
    (ProcessUpdate (fun m => m) ⟨true, "show_data", "/show_data"⟩
        ⟨StateChoosing, "", [("age", "30"), ("color", "blue")], 0⟩).replies =
      ["This is what you already told me:\nage - 30\ncolor - blue"] ∧
    ("This is what you already told me:\nage - 30\ncolor - blue" : String) ≠
      "age - 30\ncolor - blue" ∧
    ("This is what you already told me:\nage - 30\ncolor - blue" : String) ≠
      "color - blue\nage - 30" := by
  decide

/-- C7: `GetOrCreateSession` returns an existing session unchanged (store
untouched), and for an absent identifier inserts and returns exactly one
fresh session in state Choosing with empty facts, leaving every other
identifier's binding unchanged. -/
theorem c7_get_or_create_spec (st : ThreadSafeStorage) (id : Int) :
    (∀ s, lookupA st.Sessions id = some s → GetOrCreateSession st id = (s, st)) ∧
    (lookupA st.Sessions id = none →
      GetOrCreateSession st id =
        (freshSession, { st with Sessions := insertA st.Sessions id freshSession }) ∧
      freshSession.State = StateChoosing ∧ freshSession.UserData = [] ∧
      lookupA (insertA st.Sessions id freshSession) id = some freshSession ∧
      ∀ j, j ≠ id → lookupA (insertA st.Sessions id freshSession) j = lookupA st.Sessions j) := by
  constructor
  · intro s hs
    simp [GetOrCreateSession, hs]
  · intro hn
    exact ⟨by simp [GetOrCreateSession, hn], rfl, rfl, lookupA_insertA_self _ _ _,
      fun j hj => lookupA_insertA_ne _ _ _ _ hj⟩

/-- C7 witness: both branches at concrete stores — a present identifier is
returned with the store unchanged, an absent one creates the default
session. -/
theorem c7_witness :
    GetOrCreateSession ⟨[(1, freshSession)], "p"⟩ 1 = (freshSession, ⟨[(1, freshSession)], "p"⟩) ∧
    GetOrCreateSession ⟨[], "p"⟩ 2 = (freshSession, ⟨[(2, freshSession)], "p"⟩) :=
  ⟨(c7_get_or_create_spec ⟨[(1, freshSession)], "p"⟩ 1).1 freshSession (by decide),
   ((c7_get_or_create_spec ⟨[], "p"⟩ 2).2 (by decide)).1⟩

theorem processUpdate_session_cases
    (π : List (String × String) → List (String × String)) (u : Update) (s : UserSession) :
    (ProcessUpdate π u s).session = s ∨
    (ProcessUpdate π u s).session = { s with State := StateChoosing } ∨
    (ProcessUpdate π u s).session = { s with State := StateTypingChoice } ∨
    (ProcessUpdate π u s).session = { s with CurrentKey := "", State := StateChoosing } ∨
    (ProcessUpdate π u s).session = { s with CurrentKey := toLower u.Text, State := StateTypingReply } ∨
    (ProcessUpdate π u s).session =
      { s with
        UserData := insertA s.UserData s.CurrentKey (toLower u.Text)
        CurrentKey := ""
        State := StateChoosing } := by
  unfold ProcessUpdate
  by_cases h1 : (u.IsCommand && u.Command == "start") = true
  · exact Or.inr (Or.inl (by simp [h1, handleStart]))
  by_cases h2 : (u.IsCommand && u.Command == "show_data") = true
  · exact Or.inl (by simp [h1, h2, handleShowData])
  by_cases h3 : (s.State == StateChoosing) = true
  · by_cases h4 : isRegular u.Text = true
    · exact Or.inr (Or.inr (Or.inr (Or.inr (Or.inl
        (by simp [h1, h2, h3, h4, handleRegularChoice])))))
    by_cases h5 : isCustom u.Text = true
    · exact Or.inr (Or.inr (Or.inl (by simp [h1, h2, h3, h4, h5, handleCustomChoice])))
    by_cases h6 : isDone u.Text = true
    · exact Or.inr (Or.inr (Or.inr (Or.inl (by simp [h1, h2, h3, h4, h5, h6, handleDone]))))
    · exact Or.inl (by simp [h1, h2, h3, h4, h5, h6])
  by_cases h7 : (s.State == StateTypingChoice) = true
  · by_cases h6 : isDone u.Text = true
    · exact Or.inr (Or.inr (Or.inr (Or.inr (Or.inl
        (by simp [h1, h2, h3, h7, h6, handleRegularChoice])))))
    · exact Or.inr (Or.inr (Or.inr (Or.inr (Or.inl (by simp [h1, h2, h3, h7, h6])))))
  by_cases h8 : (s.State == StateTypingReply) = true
  · by_cases h6 : isDone u.Text = true
    · exact Or.inr (Or.inr (Or.inr (Or.inl (by simp [h1, h2, h3, h7, h8, h6, handleDone]))))
    · exact Or.inr (Or.inr (Or.inr (Or.inr (Or.inr
        (by simp [h1, h2, h3, h7, h8, h6, handleReceivedInformation])))))
  · exact Or.inl (by simp [h1, h2, h3, h7, h8])

/-- C8 (amended): for a fixed session snapshot and inbound event the
resulting session — new state, pending category and facts mapping — is
identical across runs (it does not depend on the map-enumeration order);
the reply TEXT, however, embeds the map in enumeration order and is
therefore not run-independent once two or more facts exist (see the
counterexample). -/
theorem c8_session_deterministic
    (π₁ π₂ : List (String × String) → List (String × String)) (u : Update) (s : UserSession) :
    (ProcessUpdate π₁ u s).session = (ProcessUpdate π₂ u s).session := by
  unfold ProcessUpdate
  by_cases h1 : (u.IsCommand && u.Command == "start") = true
  · simp [h1, handleStart]
  by_cases h2 : (u.IsCommand && u.Command == "show_data") = true
  · simp [h1, h2, handleShowData]
  by_cases h3 : (s.State == StateChoosing) = true
  · by_cases h4 : isRegular u.Text = true
    · simp [h1, h2, h3, h4]
    by_cases h5 : isCustom u.Text = true
    · simp [h1, h2, h3, h4, h5]
    by_cases h6 : isDone u.Text = true
    · simp [h1, h2, h3, h4, h5, h6, handleDone]
    · simp [h1, h2, h3, h4, h5, h6]
  by_cases h7 : (s.State == StateTypingChoice) = true
  · by_cases h6 : isDone u.Text = true
    · simp [h1, h2, h3, h7, h6]
    · simp [h1, h2, h3, h7, h6]
  by_cases h8 : (s.State == StateTypingReply) = true
  · by_cases h6 : isDone u.Text = true
    · simp [h1, h2, h3, h7, h8, h6, handleDone]
    · simp [h1, h2, h3, h7, h8, h6, handleReceivedInformation]
  · simp [h1, h2, h3, h7, h8]

/-- C8 counterexample: two valid enumeration orders of the same two-fact map
(identity and reversal, a permutation) make the Done summary reply differ,
so the reply text is not identical across runs. -/
theorem c8_counterexample :
    List.Perm (List.reverse [("age", "30"), ("color", "blue")])
      ([("age", "30"), ("color", "blue")] : List (String × String)) ∧
    (ProcessUpdate (fun m => m) ⟨false, "", "Done"⟩
        ⟨StateChoosing, "", [("age", "30"), ("color", "blue")], 0⟩).replies ≠
      (ProcessUpdate (fun m => m.reverse) ⟨false, "", "Done"⟩
        ⟨StateChoosing, "", [("age", "30"), ("color", "blue")], 0⟩).replies := by
  decide

/-- C9: the code never writes `LastUpdated`: after ANY processed event —
including ones that mutate the facts or change the state — the field is
exactly what it was before, so it is not the timestamp of the last mutation
the spec describes. -/
theorem c9_last_updated_never_written
    (π : List (String × String) → List (String × String)) (u : Update) (s : UserSession) :
    (ProcessUpdate π u s).session.LastUpdated = s.LastUpdated := by
  rcases processUpdate_session_cases π u s with h | h | h | h | h | h <;> rw [h]

/-- Step preservation of the lower-case invariant: every rewriting of the
pending category lower-cases it first, and every key inserted into the facts
map is the (already lowered) pending category. -/
theorem loweredInv_step
    (π : List (String × String) → List (String × String)) (u : Update) (s : UserSession)
    (h : LoweredInv s) : LoweredInv (ProcessUpdate π u s).session := by
  obtain ⟨hck, hud⟩ := h
  rcases processUpdate_session_cases π u s with hc | hc | hc | hc | hc | hc <;> rw [hc]
  · exact ⟨hck, hud⟩
  · exact ⟨hck, hud⟩
  · exact ⟨hck, hud⟩
  · exact ⟨rfl, hud⟩
  · exact ⟨toLower_toLower _, hud⟩
  · refine ⟨rfl, ?_⟩
    intro k v hkv
    rcases mem_insertA hkv with hk | ⟨w, hw⟩
    · rw [hk]
      exact hck
    · exact hud k w hw

/-- C10: in every session reachable from the freshly created default session
by any sequence of processed events, every key of the facts mapping is
case-normalized: it is a fixed point of `toLower`. -/
theorem c10_reachable_keys_lowercased (s : UserSession) (h : Reachable s) :
    ∀ k v, (k, v) ∈ s.UserData → toLower k = k := by
  suffices hI : LoweredInv s from hI.2
  induction h with
  | init => exact ⟨rfl, fun k v hkv => absurd hkv (List.not_mem_nil _)⟩
  | step π u hr ih => exact loweredInv_step π u _ ih

/-- C10 witness: after choosing "Age" and answering "30" from a fresh
session, the stored key "age" is lower-case, via the invariant theorem. -/
theorem c10_witness :
    ("age", "30") ∈ (ProcessUpdate (fun m => m) ⟨false, "", "30"⟩
      (ProcessUpdate (fun m => m) ⟨false, "", "Age"⟩ freshSession).session).session.UserData ∧
    toLower "age" = "age" :=
  ⟨by decide,
   c10_reachable_keys_lowercased _
     (Reachable.step (fun m => m) ⟨false, "", "30"⟩
       (Reachable.step (fun m => m) ⟨false, "", "Age"⟩ Reachable.init))
     "age" "30" (by decide)⟩

end TgBot
